import Mathlib

/-!
Shallow embedding of the SRP server backend (src/backend/thinbus-srp-server.js)
of the secure-storage repository.

The JavaScript module keeps a process-wide user "DB" (`let users = null`),
lazily loaded from a JSON snapshot file, and three request handlers
(`challenge`, `auth`, `register`) that operate on that store and on the
per-browser express session object (`req.session`).  The SRP mathematics
(thinbus-srp's `step1`/`step2`) is an external capability and is modelled as
an abstract, deterministic `Engine` record, as the spec prescribes.

JavaScript objects used as string-keyed maps are embedded as association
lists with exact (case-sensitive) string keys; `undefined`/`null` becomes
`Option`; JS truthiness tests on the request strings (`!username` etc.)
become the `jsFalsy` predicate (both `undefined` and the empty string are
falsy).  Each handler is a pure function from its inputs and the relevant
mutable state (store state and/or session object) to an HTTP result and the
updated state; `await` sequencing in the source becomes ordinary sequential
composition.
-/

namespace SecureStorage

/-- A user record as stored by `saveUser`: the hex-encoded salt and verifier
(`users[username] = {salt: salt, verifier: verifier}`). -/
structure UserRecord where
  salt : String
  verifier : String
deriving DecidableEq, Repr

/-- The JS object mapping usernames to user records, embedded as an
association list with exact string keys. -/
abbrev UserDB := List (String × UserRecord)

/-- JS property read `users[username]`: exact, case-sensitive key lookup,
`undefined` (here `none`) when the key is absent. -/
def dbGet (db : UserDB) (u : String) : Option UserRecord :=
  match db with
  | [] => none
  | (k, r) :: rest => if k = u then some r else dbGet rest u

/-- JS property write `users[username] = r`: overwrite the entry when the
key is present, otherwise add a new one. -/
def dbSet (db : UserDB) (u : String) (r : UserRecord) : UserDB :=
  match db with
  | [] => [(u, r)]
  | (k, r0) :: rest => if k = u then (k, r) :: rest else (k, r0) :: dbSet rest u r

/-- The module-global storage state: `users` is the in-memory cache (`null`,
i.e. `none`, until first loaded) and `disk` is the parsed content of the
durable snapshot file `./thinbus-srp.db.json` (`none` when the file is
missing or unreadable, i.e. when `readFile`/`JSON.parse` would throw). -/
structure StoreState where
  users : Option UserDB
  disk : Option UserDB
deriving DecidableEq, Repr

/-- Embedding of `getUser`: return the cached entry when the cache is
loaded; otherwise load the snapshot file into the cache first, and on a
read/parse failure install an empty database and return `null`. -/
def getUser (st : StoreState) (username : String) : Option UserRecord × StoreState :=
  match st.users with
  | some db => (dbGet db username, st)
  | none =>
    match st.disk with
    | some db => (dbGet db username, { st with users := some db })
    | none => (none, { st with users := some [] })

/-- Embedding of `saveUser`: set `users[username]` and write the whole map
back to the snapshot file (`JSON.stringify(users)`).  When `users` is still
`null` the JS assignment would throw a `TypeError` (caught by
`handleRequest` as an internal error), modelled by `none`. -/
def saveUser (st : StoreState) (username salt verifier : String) : Option StoreState :=
  match st.users with
  | some db =>
    let db2 := dbSet db username ⟨salt, verifier⟩
    some { users := some db2, disk := some db2 }
  | none => none

/-- The express session object as used by this module: `serverSession`
holds the serialized SRP server state written by `challenge`; `server` is a
distinct property that is only ever the target of the `delete` statement in
`auth`'s success path; `loggedIn` is the authenticated flag (`none` while
never written). -/
structure Session where
  serverSession : Option String
  server : Option String
  loggedIn : Option Bool
deriving DecidableEq, Repr

/-- JS truthiness test on an optional request string: `undefined` and the
empty string are falsy, every other string is truthy. -/
def jsFalsy : Option String → Bool
  | none => true
  | some s => s == ""

/-- The external SRP math capability (thinbus-srp), per the spec's
capability contract: `step1 username salt verifier` yields the public
ephemeral `B` together with the serialized private server state
(`toPrivateStoreState`); `step2 state A M1` yields `some M2` when the
client proof verifies and `none` when `step2` would throw (wrong
credentials). -/
structure Engine where
  step1 : String → String → String → String × String
  step2 : String → String → String → Option String

/-- HTTP request methods as compared by the handlers. -/
inductive Method where
  | GET
  | POST
  | OTHER
deriving DecidableEq, Repr

/-- The possible responses of the three handlers. -/
inductive HttpResult where
  | badRequest
  | notFound
  | forbidden
  | unauthorized
  | internalError
  | noContent
  | okChallenge (salt B : String)
  | okAuth (M2 : String)
deriving DecidableEq, Repr

/-- Numeric HTTP status code of each response. -/
def statusCode : HttpResult → Nat
  | .badRequest => 400
  | .notFound => 404
  | .forbidden => 403
  | .unauthorized => 401
  | .internalError => 500
  | .noContent => 204
  | .okChallenge _ _ => 200
  | .okAuth _ => 200

/-- Embedding of the `challenge` handler: validate method and `user` query
parameter, look the user up (404 when absent), run SRP `step1`, store the
private state into `req.session.serverSession` (overwriting whatever was
there) and answer `{salt, B}`. -/
def challenge (eng : Engine) (method : Method) (user? : Option String)
    (st : StoreState) (sess : Session) : HttpResult × StoreState × Session :=
  if method != Method.GET || jsFalsy user? then
    (.badRequest, st, sess)
  else
    match getUser st (user?.getD "") with
    | (none, st2) => (.notFound, st2, sess)
    | (some user, st2) =>
      let r := eng.step1 (user?.getD "") user.salt user.verifier
      (.okChallenge user.salt r.1, st2, { sess with serverSession := some r.2 })

/-- Embedding of the `auth` handler: validate method and the three body
fields, require a truthy `req.session.serverSession` (403 otherwise), then
run SRP `step2` on the stored state.  On success set `loggedIn := true`,
run `delete req.session.server` (which clears the `server` property, not
`serverSession`) and answer `{M2}`; on a thrown verification failure set
`loggedIn := false` and answer 401. -/
def auth (eng : Engine) (method : Method) (user? A? M1? : Option String)
    (sess : Session) : HttpResult × Session :=
  if method != Method.POST || jsFalsy user? || jsFalsy A? || jsFalsy M1? then
    (.badRequest, sess)
  else if jsFalsy sess.serverSession then
    (.forbidden, sess)
  else
    match eng.step2 (sess.serverSession.getD "") (A?.getD "") (M1?.getD "") with
    | some M2 => (.okAuth M2, { sess with loggedIn := some true, server := none })
    | none => (.unauthorized, { sess with loggedIn := some false })

/-- Embedding of the `register` handler: validate method and the three body
fields, reject an already-present username with 403, otherwise `saveUser`
and answer 204 No Content. -/
def register (method : Method) (user? salt? verifier? : Option String)
    (st : StoreState) : HttpResult × StoreState :=
  if method != Method.POST || jsFalsy user? || jsFalsy salt? || jsFalsy verifier? then
    (.badRequest, st)
  else
    match getUser st (user?.getD "") with
    | (some _, st2) => (.forbidden, st2)
    | (none, st2) =>
      match saveUser st2 (user?.getD "") (salt?.getD "") (verifier?.getD "") with
      | some st3 => (.noContent, st3)
      | none => (.internalError, st2)

/-- A concrete deterministic engine used to instantiate witness theorems:
`step1` always yields public value `B0` and private state `state0`, and
`step2` verifies exactly the pair `A0`/`M1good` against `state0`. -/
def demoEngine : Engine where
  step1 := fun _ _ _ => ("B0", "state0")
  step2 := fun state A M1 =>
    if state == "state0" && A == "A0" && M1 == "M1good" then some "M2resp" else none

/-! ### Basic lemmas about the association-list database -/

theorem dbGet_dbSet_self (db : UserDB) (u : String) (r : UserRecord) :
    dbGet (dbSet db u r) u = some r := by
  induction db with
  | nil => simp [dbGet, dbSet]
  | cons hd tl ih =>
    obtain ⟨k, r0⟩ := hd
    by_cases hk : k = u
    · simp [dbGet, dbSet, hk]
    · simp [dbGet, dbSet, hk, ih]

theorem dbGet_dbSet_ne (db : UserDB) (u w : String) (r : UserRecord)
    (h : u ≠ w) : dbGet (dbSet db u r) w = dbGet db w := by
  induction db with
  | nil => simp [dbGet, dbSet, h]
  | cons hd tl ih =>
    obtain ⟨k, r0⟩ := hd
    by_cases hk : k = u
    · subst hk
      simp [dbGet, dbSet, h]
    · simp [dbGet, dbSet, hk, ih]

theorem dbGet_isSome_iff_mem_keys (db : UserDB) (u : String) :
    (dbGet db u).isSome ↔ u ∈ db.map Prod.fst := by
  induction db with
  | nil => simp [dbGet]
  | cons hd tl ih =>
    obtain ⟨k, r0⟩ := hd
    by_cases hk : k = u
    · simp [dbGet, hk]
    · simp [dbGet, hk, ih, Ne.symm hk]

/-! ### Characterization of `getUser` -/

/-- The database `getUser` effectively consults: the in-memory cache when
loaded, else the snapshot, else the empty map. -/
def loadDB (st : StoreState) : UserDB :=
  match st.users with
  | some db => db
  | none => st.disk.getD []

theorem getUser_eq (st : StoreState) (u : String) :
    getUser st u = (dbGet (loadDB st) u, ⟨some (loadDB st), st.disk⟩) := by
  obtain ⟨us, dk⟩ := st
  cases us <;> cases dk <;> simp [getUser, loadDB, dbGet]

theorem getUser_users_isSome (st : StoreState) (u : String) :
    ((getUser st u).2).users.isSome := by
  rw [getUser_eq]
  simp

/-! ### Inversion of a successful registration -/

theorem register_noContent_inv {u s v : String} {st st1 : StoreState}
    (h : register .POST (some u) (some s) (some v) st = (.noContent, st1)) :
    u ≠ "" ∧ s ≠ "" ∧ v ≠ "" ∧ dbGet (loadDB st) u = none ∧
      st1 = ⟨some (dbSet (loadDB st) u ⟨s, v⟩), some (dbSet (loadDB st) u ⟨s, v⟩)⟩ := by
  unfold register at h
  simp only [Option.getD_some] at h
  rw [getUser_eq st u] at h
  by_cases hu : u = ""
  · simp [jsFalsy, hu] at h
  by_cases hs : s = ""
  · simp [jsFalsy, hs] at h
  by_cases hv : v = ""
  · simp [jsFalsy, hv] at h
  simp only [jsFalsy, hu, hs, hv] at h
  cases hdb : dbGet (loadDB st) u with
  | some r =>
    rw [hdb] at h
    simp [hu, hs, hv] at h
  | none =>
    rw [hdb] at h
    simp [hu, hs, hv, saveUser] at h
    exact ⟨hu, hs, hv, rfl, h.symm⟩

/-! ### Claim theorems -/

/-- C1: the spec states that on a successful `auth` the ephemeral
ProtocolSessionState is deleted from the session binding, so that replaying
the identical request yields ProtocolOrderError (403).  The code instead
executes `delete req.session.server`, clearing a property that is never set,
while the ephemeral state lives in `req.session.serverSession`: after a
successful `auth` the state is still present and the identical replayed
request succeeds again with 200 `{M2}` rather than failing with 403. -/
theorem auth_success_replay_succeeds_again :
    (auth demoEngine .POST (some "alice") (some "A0") (some "M1good")
        ⟨some "state0", none, none⟩).1 = .okAuth "M2resp" ∧
    (auth demoEngine .POST (some "alice") (some "A0") (some "M1good")
        ⟨some "state0", none, none⟩).2.serverSession = some "state0" ∧
    (auth demoEngine .POST (some "alice") (some "A0") (some "M1good")
        (auth demoEngine .POST (some "alice") (some "A0") (some "M1good")
          ⟨some "state0", none, none⟩).2).1 = .okAuth "M2resp" ∧
    (auth demoEngine .POST (some "alice") (some "A0") (some "M1good")
        (auth demoEngine .POST (some "alice") (some "A0") (some "M1good")
          ⟨some "state0", none, none⟩).2).1 ≠ .forbidden := by
  refine ⟨rfl, rfl, rfl, ?_⟩
  decide

/-- C2: once a first registration of `u` succeeded, a second `register` call
for the same username (with any present salt/verifier) answers Conflict
(403), leaves the store untouched, and the stored record for `u` is still
the salt/verifier of the first call. -/
theorem register_duplicate_conflict (u s v s2 v2 : String) (st st1 : StoreState)
    (h1 : register .POST (some u) (some s) (some v) st = (.noContent, st1))
    (hs2 : s2 ≠ "") (hv2 : v2 ≠ "") :
    register .POST (some u) (some s2) (some v2) st1 = (.forbidden, st1) ∧
    (getUser st1 u).1 = some ⟨s, v⟩ ∧ statusCode .forbidden = 403 := by
  obtain ⟨hu, -, -, -, hst1⟩ := register_noContent_inv h1
  subst hst1
  refine ⟨?_, ?_, rfl⟩
  · unfold register
    simp only [Option.getD_some]
    rw [getUser_eq]
    simp [jsFalsy, hu, hs2, hv2, loadDB, dbGet_dbSet_self]
  · rw [getUser_eq]
    simp [loadDB, dbGet_dbSet_self]

/-- Witness for C2 at concrete inputs. -/
theorem register_duplicate_conflict_witness :
    register .POST (some "bob") (some "s2") (some "v2")
        ⟨some [("bob", ⟨"s1", "v1"⟩)], some [("bob", ⟨"s1", "v1"⟩)]⟩
      = (.forbidden, ⟨some [("bob", ⟨"s1", "v1"⟩)], some [("bob", ⟨"s1", "v1"⟩)]⟩) ∧
    (getUser ⟨some [("bob", ⟨"s1", "v1"⟩)], some [("bob", ⟨"s1", "v1"⟩)]⟩ "bob").1
      = some ⟨"s1", "v1"⟩ ∧ statusCode .forbidden = 403 :=
  register_duplicate_conflict "bob" "s1" "v1" "s2" "v2" ⟨some [], none⟩
    ⟨some [("bob", ⟨"s1", "v1"⟩)], some [("bob", ⟨"s1", "v1"⟩)]⟩
    (by decide) (by decide) (by decide)

/-- C3: an `auth` call with all three body fields present, on a session
whose binding holds no (truthy) `serverSession` state — never challenged,
or the state absent/expired — answers 403 (ProtocolOrderError), leaves the
session unchanged, and this outcome is distinct from the 401 credential
failure. -/
theorem auth_without_challenge_forbidden (eng : Engine) (user? A? M1? : Option String)
    (sess : Session)
    (hu : jsFalsy user? = false) (hA : jsFalsy A? = false) (hM : jsFalsy M1? = false)
    (hs : jsFalsy sess.serverSession = true) :
    auth eng .POST user? A? M1? sess = (.forbidden, sess) ∧
    statusCode .forbidden = 403 ∧ statusCode .unauthorized = 401 ∧
    (HttpResult.forbidden ≠ HttpResult.unauthorized) := by
  refine ⟨?_, rfl, rfl, by decide⟩
  unfold auth
  simp [hu, hA, hM, hs]

/-- Witness for C3 at concrete inputs (a session that was never challenged). -/
theorem auth_without_challenge_forbidden_witness :
    auth demoEngine .POST (some "alice") (some "A0") (some "M1good") ⟨none, none, none⟩
      = (.forbidden, ⟨none, none, none⟩) ∧
    statusCode .forbidden = 403 ∧ statusCode .unauthorized = 401 ∧
    (HttpResult.forbidden ≠ HttpResult.unauthorized) :=
  auth_without_challenge_forbidden demoEngine (some "alice") (some "A0") (some "M1good")
    ⟨none, none, none⟩ (by decide) (by decide) (by decide) (by decide)

/-- C4: when M1 verification fails (`step2` throws), `auth` answers 401,
sets `loggedIn := false`, and leaves the ephemeral `serverSession` state in
place, so that the identical retry on the same session reaches verification
again (it answers 401 once more, not 403). -/
theorem auth_failure_keeps_ephemeral_state (eng : Engine) (user? A? M1? : Option String)
    (sess : Session)
    (hu : jsFalsy user? = false) (hA : jsFalsy A? = false) (hM : jsFalsy M1? = false)
    (hs : jsFalsy sess.serverSession = false)
    (hfail : eng.step2 (sess.serverSession.getD "") (A?.getD "") (M1?.getD "") = none) :
    auth eng .POST user? A? M1? sess
      = (.unauthorized, { sess with loggedIn := some false }) ∧
    ({ sess with loggedIn := some false } : Session).serverSession = sess.serverSession ∧
    auth eng .POST user? A? M1? { sess with loggedIn := some false }
      = (.unauthorized, { sess with loggedIn := some false }) ∧
    statusCode .unauthorized = 401 := by
  refine ⟨?_, rfl, ?_, rfl⟩
  · unfold auth
    simp [hu, hA, hM, hs, hfail]
  · unfold auth
    simp [hu, hA, hM, hs, hfail]

/-- Witness for C4 at concrete inputs (a pending challenge and a wrong M1). -/
theorem auth_failure_keeps_ephemeral_state_witness :
    auth demoEngine .POST (some "alice") (some "A0") (some "M1bad")
        ⟨some "state0", none, none⟩
      = (.unauthorized, ⟨some "state0", none, some false⟩) ∧
    (⟨some "state0", none, some false⟩ : Session).serverSession
      = (⟨some "state0", none, none⟩ : Session).serverSession ∧
    auth demoEngine .POST (some "alice") (some "A0") (some "M1bad")
        ⟨some "state0", none, some false⟩
      = (.unauthorized, ⟨some "state0", none, some false⟩) ∧
    statusCode .unauthorized = 401 :=
  auth_failure_keeps_ephemeral_state demoEngine (some "alice") (some "A0") (some "M1bad")
    ⟨some "state0", none, none⟩ (by decide) (by decide) (by decide) (by decide) (by decide)

/-- C5: a successful `register` leaves the in-memory cache and the durable
snapshot equal to one full map that contains the new record; the write
happens before the 204 result is produced (sequential composition of the
awaited `saveUser`), every subsequent lookup of the new username returns
the new record, and no other user's record is disturbed. -/
theorem register_durable_snapshot (u s v : String) (st st1 : StoreState)
    (h : register .POST (some u) (some s) (some v) st = (.noContent, st1)) :
    ∃ db, st1.users = some db ∧ st1.disk = some db ∧ dbGet db u = some ⟨s, v⟩ ∧
      (getUser st1 u).1 = some ⟨s, v⟩ ∧
      ∀ w, w ≠ u → (getUser st1 w).1 = (getUser st w).1 := by
  obtain ⟨hu, hs, hv, hnone, hst1⟩ := register_noContent_inv h
  subst hst1
  refine ⟨dbSet (loadDB st) u ⟨s, v⟩, rfl, rfl, dbGet_dbSet_self _ _ _, ?_, ?_⟩
  · rw [getUser_eq]
    simp [loadDB, dbGet_dbSet_self]
  · intro w hw
    rw [getUser_eq, getUser_eq]
    simp [loadDB, dbGet_dbSet_ne _ _ _ _ (Ne.symm hw)]

/-- Witness for C5 at concrete inputs. -/
theorem register_durable_snapshot_witness :
    ∃ db, (⟨some [("bob", ⟨"s1", "v1"⟩)], some [("bob", ⟨"s1", "v1"⟩)]⟩
        : StoreState).users = some db ∧
      (⟨some [("bob", ⟨"s1", "v1"⟩)], some [("bob", ⟨"s1", "v1"⟩)]⟩
        : StoreState).disk = some db ∧
      dbGet db "bob" = some ⟨"s1", "v1"⟩ ∧
      (getUser ⟨some [("bob", ⟨"s1", "v1"⟩)], some [("bob", ⟨"s1", "v1"⟩)]⟩ "bob").1
        = some ⟨"s1", "v1"⟩ ∧
      ∀ w, w ≠ "bob" →
        (getUser ⟨some [("bob", ⟨"s1", "v1"⟩)], some [("bob", ⟨"s1", "v1"⟩)]⟩ w).1
          = (getUser ⟨some [], none⟩ w).1 :=
  register_durable_snapshot "bob" "s1" "v1" ⟨some [], none⟩
    ⟨some [("bob", ⟨"s1", "v1"⟩)], some [("bob", ⟨"s1", "v1"⟩)]⟩ (by decide)

/-- C6: a `challenge` for a registered user stores the fresh engine state
into the session binding unconditionally, whatever `serverSession`
previously held (last challenge wins); the binding's single `Option`-valued
slot holds exactly the most recent state, which is what a subsequent `auth`
will read. -/
theorem challenge_overwrites_prior_state (eng : Engine) (u : String)
    (st : StoreState) (sess : Session) (r : UserRecord)
    (hu : u ≠ "") (hfound : (getUser st u).1 = some r) :
    (challenge eng .GET (some u) st sess).1
      = .okChallenge r.salt (eng.step1 u r.salt r.verifier).1 ∧
    (challenge eng .GET (some u) st sess).2.2.serverSession
      = some (eng.step1 u r.salt r.verifier).2 := by
  have hdb : dbGet (loadDB st) u = some r := by
    rw [getUser_eq] at hfound
    exact hfound
  unfold challenge
  simp only [Option.getD_some]
  rw [getUser_eq]
  simp [jsFalsy, hu, hdb]

/-- Witness for C6 at concrete inputs, with a prior state in the binding
that gets overwritten. -/
theorem challenge_overwrites_prior_state_witness :
    (challenge demoEngine .GET (some "bob")
        ⟨some [("bob", ⟨"s1", "v1"⟩)], none⟩ ⟨some "oldstate", none, some true⟩).1
      = .okChallenge "s1" (demoEngine.step1 "bob" "s1" "v1").1 ∧
    (challenge demoEngine .GET (some "bob")
        ⟨some [("bob", ⟨"s1", "v1"⟩)], none⟩ ⟨some "oldstate", none, some true⟩).2.2.serverSession
      = some (demoEngine.step1 "bob" "s1" "v1").2 :=
  challenge_overwrites_prior_state demoEngine "bob"
    ⟨some [("bob", ⟨"s1", "v1"⟩)], none⟩ ⟨some "oldstate", none, some true⟩
    ⟨"s1", "v1"⟩ (by decide) (by decide)

/-- C7: when the module-global cache is unloaded and the snapshot file is
missing or unreadable, the first lookup installs an empty store and returns
`null` for every username (so `challenge` answers 404), and a subsequent
`register` against the resulting empty in-memory store proceeds normally
to 204. -/
theorem missing_snapshot_empty_store (eng : Engine) (sess : Session)
    (u w s v : String) (hu : u ≠ "") (hs : s ≠ "") (hv : v ≠ "") :
    (getUser ⟨none, none⟩ w).1 = none ∧
    (getUser ⟨none, none⟩ w).2 = ⟨some [], none⟩ ∧
    challenge eng .GET (some u) ⟨none, none⟩ sess = (.notFound, ⟨some [], none⟩, sess) ∧
    statusCode .notFound = 404 ∧
    (register .POST (some u) (some s) (some v) ⟨some [], none⟩).1 = .noContent := by
  refine ⟨rfl, rfl, ?_, rfl, ?_⟩
  · unfold challenge
    simp [jsFalsy, hu, getUser, dbGet]
  · unfold register
    simp [jsFalsy, hu, hs, hv, getUser, saveUser, dbGet]

/-- Witness for C7 at concrete inputs. -/
theorem missing_snapshot_empty_store_witness :
    (getUser ⟨none, none⟩ "anyone").1 = none ∧
    (getUser ⟨none, none⟩ "anyone").2 = ⟨some [], none⟩ ∧
    challenge demoEngine .GET (some "bob") ⟨none, none⟩ ⟨none, none, none⟩
      = (.notFound, ⟨some [], none⟩, ⟨none, none, none⟩) ∧
    statusCode .notFound = 404 ∧
    (register .POST (some "bob") (some "s1") (some "v1") ⟨some [], none⟩).1 = .noContent :=
  missing_snapshot_empty_store demoEngine ⟨none, none, none⟩ "bob" "anyone" "s1" "v1"
    (by decide) (by decide) (by decide)

/-- C8: a `challenge` with a present username that is not in the store
answers 404 NotFound and leaves the session binding exactly unchanged — in
particular no ephemeral `serverSession` state is created. -/
theorem challenge_unknown_user_no_state (eng : Engine) (u : String)
    (st : StoreState) (sess : Session)
    (hu : u ≠ "") (hnone : (getUser st u).1 = none) :
    challenge eng .GET (some u) st sess = (.notFound, (getUser st u).2, sess) ∧
    statusCode .notFound = 404 := by
  have hdb : dbGet (loadDB st) u = none := by
    rw [getUser_eq] at hnone
    exact hnone
  refine ⟨?_, rfl⟩
  unfold challenge
  simp only [Option.getD_some]
  rw [getUser_eq]
  simp [jsFalsy, hu, hdb]

/-- Witness for C8 at concrete inputs. -/
theorem challenge_unknown_user_no_state_witness :
    challenge demoEngine .GET (some "carol")
        ⟨some [("bob", ⟨"s1", "v1"⟩)], none⟩ ⟨some "oldstate", none, some true⟩
      = (.notFound, (getUser ⟨some [("bob", ⟨"s1", "v1"⟩)], none⟩ "carol").2,
          ⟨some "oldstate", none, some true⟩) ∧
    statusCode .notFound = 404 :=
  challenge_unknown_user_no_state demoEngine "carol"
    ⟨some [("bob", ⟨"s1", "v1"⟩)], none⟩ ⟨some "oldstate", none, some true⟩
    (by decide) (by decide)

/-- C9: usernames are opaque, case-sensitive strings matched exactly:
registering `u1` leaves the lookup of any other string `u2` (including one
differing only in letter case) unchanged, and a lookup succeeds exactly
when the queried string itself is a key of the database, i.e. was
registered as such. -/
theorem usernames_exact_case_sensitive (u1 u2 s v : String) (st st1 : StoreState)
    (hne : u1 ≠ u2)
    (h : register .POST (some u1) (some s) (some v) st = (.noContent, st1)) :
    (getUser st1 u2).1 = (getUser st u2).1 ∧
    ∀ (db : UserDB) (u : String), (dbGet db u).isSome ↔ u ∈ db.map Prod.fst := by
  obtain ⟨hu, -, -, -, hst1⟩ := register_noContent_inv h
  subst hst1
  constructor
  · rw [getUser_eq, getUser_eq]
    simp [loadDB, dbGet_dbSet_ne _ _ _ _ hne]
  · exact dbGet_isSome_iff_mem_keys

/-- Witness for C9 at a pair of usernames differing only in letter case. -/
theorem usernames_exact_case_sensitive_witness :
    (getUser ⟨some [("Alice", ⟨"s1", "v1"⟩)], some [("Alice", ⟨"s1", "v1"⟩)]⟩ "alice").1
      = (getUser ⟨some [], none⟩ "alice").1 ∧
    ∀ (db : UserDB) (u : String), (dbGet db u).isSome ↔ u ∈ db.map Prod.fst :=
  usernames_exact_case_sensitive "Alice" "alice" "s1" "v1" ⟨some [], none⟩
    ⟨some [("Alice", ⟨"s1", "v1"⟩)], some [("Alice", ⟨"s1", "v1"⟩)]⟩
    (by decide) (by decide)

/-- C10: `challenge` never writes the `loggedIn` flag (nor the `server`
property): on every input — bad request, unknown user, or success — the
session it returns carries the caller's `loggedIn` value unchanged; among
the three handlers only `auth` assigns `loggedIn` (and `register` does not
touch the session at all, as its embedding's signature shows). -/
theorem challenge_preserves_loggedIn (eng : Engine) (m : Method)
    (user? : Option String) (st : StoreState) (sess : Session) :
    (challenge eng m user? st sess).2.2.loggedIn = sess.loggedIn ∧
    (challenge eng m user? st sess).2.2.server = sess.server := by
  unfold challenge
  split
  · exact ⟨rfl, rfl⟩
  · rw [getUser_eq]
    cases hdb : dbGet (loadDB st) (user?.getD "") <;> simp [hdb]

end SecureStorage
